import Mathlib

/-!
# Promise: a shallow embedding of `promise.go`

The Go package `promise` builds a one-shot deferred value out of two channels
(`result`, `fail`) and three callback slices.  This development embeds

* the channel operations the package relies on (`send`, `recv`, `close`) with
  their blocking and panicking cases made explicit,
* `Resolve`, `Reject`, `Then`, `Catch`, `Finally` as pure functions on the promise state,
* `Await` as a small-step machine (`awaitStep`) whose run to completion is `Await`,
* `New` and `All` as interleaving systems: every goroutine is a program counter,
  a schedule is a list of goroutine picks, and `run` folds the schedule.

Modelling conventions.
* A Go `error` is `Option E`; `nil` is `none`.
* The zero value of `T` is `default`; the zero value of `[]T` is `[]`.
* A blocked operation leaves the state unchanged (the goroutine stays at its
  program counter); a panic is recorded explicitly.
* Callbacks are functions on an external environment `σ`; they do not touch the
  promise they are registered on.  Every callback invocation is also recorded in
  a call log, with the index of the callback in its slice and its argument.
* The field names `then`, `catch`, `finally` are reserved words in Lean and are
  rendered `thens`, `catches`, `finallys`.
-/

namespace promise

/-! ## Channels -/

/-- Result of a channel operation: completed, would block, or panics. -/
inductive Res (α : Type) where
  | done (a : α)
  | blocked
  | panicked

/-- A Go channel `make(chan α, cap)`: its capacity, buffered values (oldest first),
and whether it has been closed. -/
structure Chan (α : Type) where
  cap : Nat
  buf : List α
  closed : Bool

namespace Chan

/-- The call `make(chan α, cap)`. -/
def make (α : Type) (cap : Nat) : Chan α := ⟨cap, [], false⟩

/-- The statement `c <- v` with no receiver waiting: panics on a closed channel,
enqueues when the buffer has room, blocks otherwise. -/
def send {α : Type} (c : Chan α) (v : α) : Res (Chan α) :=
  if c.closed then Res.panicked
  else if c.buf.length < c.cap then Res.done { c with buf := c.buf ++ [v] }
  else Res.blocked

/-- The expression `v, ok := <-c` with no sender waiting: the oldest buffered value
with `ok = true`; on an empty closed channel the zero value with `ok = false`;
blocks on an empty open channel. -/
def recv {α : Type} [Inhabited α] (c : Chan α) : Res (α × Bool × Chan α) :=
  match c.buf with
  | v :: rest => Res.done (v, true, { c with buf := rest })
  | [] => if c.closed then Res.done (default, false, c) else Res.blocked

/-- The call `close(c)`: panics when the channel is already closed. -/
def close {α : Type} (c : Chan α) : Res (Chan α) :=
  if c.closed then Res.panicked else Res.done { c with closed := true }

/-- A receive case of a `select` is ready when a value is buffered or the channel is closed. -/
def ready {α : Type} (c : Chan α) : Bool :=
  !c.buf.isEmpty || c.closed

end Chan

/-! ## The promise state and its synchronous constructors -/

/-- The struct `Promise[T]` (promise.go lines 7-13). -/
structure Promise (σ T E : Type) where
  result : Chan T
  fail : Chan (Option E)
  thens : List (T → σ → σ)
  catches : List (Option E → σ → σ)
  finallys : List (σ → σ)

/-- The function `Resolve` (promise.go lines 36-47). The send on the fresh one-slot
channel and the close of the fresh channel cannot block or panic. -/
def Resolve {σ T E : Type} (data : T) : Promise σ T E :=
  { result := { cap := 1, buf := [data], closed := false }
    fail := { cap := 0, buf := [], closed := true }
    thens := []
    catches := []
    finallys := [] }

/-- The function `Reject` (promise.go lines 49-60). -/
def Reject {σ T E : Type} (data : Option E) : Promise σ T E :=
  { result := { cap := 0, buf := [], closed := true }
    fail := { cap := 1, buf := [data], closed := false }
    thens := []
    catches := []
    finallys := [] }

/-- The method `Then` (promise.go lines 102-105). -/
def Promise.Then {σ T E : Type} (prom : Promise σ T E) (handler : T → σ → σ) : Promise σ T E :=
  { prom with thens := prom.thens ++ [handler] }

/-- The method `Catch` (promise.go lines 107-110). -/
def Promise.Catch {σ T E : Type} (prom : Promise σ T E) (handler : Option E → σ → σ) :
    Promise σ T E :=
  { prom with catches := prom.catches ++ [handler] }

/-- The method `Finally` (promise.go lines 112-115). -/
def Promise.Finally {σ T E : Type} (prom : Promise σ T E) (handler : σ → σ) : Promise σ T E :=
  { prom with finallys := prom.finallys ++ [handler] }

/-! ## Await -/

/-- One recorded callback invocation: which slice, which index, which argument. -/
inductive Call (T E : Type) where
  | thenCall (i : Nat) (arg : T)
  | catchCall (i : Nat) (arg : Option E)
  | finallyCall (i : Nat)

/-- The loop `for _, then := range prom.then { then(resultT) }` (lines 84-86),
starting at slice index `i`. -/
def fireThen {σ T E : Type} (fs : List (T → σ → σ)) (t : T) (i : Nat) (env : σ)
    (log : List (Call T E)) : σ × List (Call T E) :=
  match fs with
  | [] => (env, log)
  | f :: rest => fireThen rest t (i + 1) (f t env) (log ++ [Call.thenCall i t])

/-- The loop `for _, catch := range prom.catch { catch(resultE) }` (lines 90-92). -/
def fireCatch {σ T E : Type} (fs : List (Option E → σ → σ)) (e : Option E) (i : Nat) (env : σ)
    (log : List (Call T E)) : σ × List (Call T E) :=
  match fs with
  | [] => (env, log)
  | f :: rest => fireCatch rest e (i + 1) (f e env) (log ++ [Call.catchCall i e])

/-- The loop `for _, finally := range prom.finally { finally() }` (lines 96-98). -/
def fireFinally {σ T E : Type} (fs : List (σ → σ)) (i : Nat) (env : σ)
    (log : List (Call T E)) : σ × List (Call T E) :=
  match fs with
  | [] => (env, log)
  | f :: rest => fireFinally rest (i + 1) (f env) (log ++ [Call.finallyCall i])

/-- Program counter of a goroutine executing `Await` (promise.go lines 62-100). -/
inductive AwaitPc (T E : Type) where
  /-- At the `select` of line 66. -/
  | select
  /-- At `resultE = <-prom.fail` of line 71 (the result channel was seen closed). -/
  | recvFail
  /-- At `resultT = <-prom.result` of line 79 (the fail channel was seen closed). -/
  | recvResult
  /-- At line 82 with the three locals set. -/
  | settle (isCatched : Bool) (resultT : T) (resultE : Option E)
  /-- After `return resultT, resultE`. -/
  | returned (resultT : T) (resultE : Option E)
  /-- A `close` of an already closed channel panicked (line 87 or 94). -/
  | panicked

/-- The state seen by a goroutine inside `Await`: the promise, where the goroutine is,
the callbacks' environment and the call log. -/
structure AwaitState (σ T E : Type) where
  prom : Promise σ T E
  pc : AwaitPc T E
  env : σ
  calls : List (Call T E)

/-- One atomic step of `Await`. `pick = true` makes the `select` take the
`prom.result` case when both cases are ready, `pick = false` the `prom.fail` case;
a case that is not ready is never taken. A blocked step returns the state unchanged. -/
def awaitStep {σ T E : Type} [Inhabited T] (pick : Bool) (s : AwaitState σ T E) :
    AwaitState σ T E :=
  match s.pc with
  | AwaitPc.select =>
    if s.prom.result.ready && (pick || !s.prom.fail.ready) then
      -- case res, isResOk := <-prom.result
      match s.prom.result.recv with
      | Res.done (res, isResOk, c) =>
        if isResOk then
          { s with prom := { s.prom with result := c }, pc := AwaitPc.settle false res none }
        else
          { s with prom := { s.prom with result := c }, pc := AwaitPc.recvFail }
      | _ => s
    else if s.prom.fail.ready then
      -- case err, isErrOk := <-prom.fail
      match s.prom.fail.recv with
      | Res.done (err, isErrOk, c) =>
        if isErrOk then
          { s with prom := { s.prom with fail := c }, pc := AwaitPc.settle true default err }
        else
          { s with prom := { s.prom with fail := c }, pc := AwaitPc.recvResult }
      | _ => s
    else s
  | AwaitPc.recvFail =>
    match s.prom.fail.recv with
    | Res.done (err, _, c) =>
      { s with prom := { s.prom with fail := c }, pc := AwaitPc.settle true default err }
    | _ => s
  | AwaitPc.recvResult =>
    match s.prom.result.recv with
    | Res.done (res, _, c) =>
      { s with prom := { s.prom with result := c }, pc := AwaitPc.settle false res none }
    | _ => s
  | AwaitPc.settle isCatched resultT resultE =>
    if !isCatched then
      let fired := fireThen s.prom.thens resultT 0 s.env s.calls
      match s.prom.result.close with
      | Res.done c =>
        let fin := fireFinally s.prom.finallys 0 fired.1 fired.2
        { prom := { s.prom with result := c }, pc := AwaitPc.returned resultT resultE,
          env := fin.1, calls := fin.2 }
      | _ => { s with pc := AwaitPc.panicked, env := fired.1, calls := fired.2 }
    else
      let fired := fireCatch s.prom.catches resultE 0 s.env s.calls
      match s.prom.fail.close with
      | Res.done c =>
        let fin := fireFinally s.prom.finallys 0 fired.1 fired.2
        { prom := { s.prom with fail := c }, pc := AwaitPc.returned resultT resultE,
          env := fin.1, calls := fin.2 }
      | _ => { s with pc := AwaitPc.panicked, env := fired.1, calls := fired.2 }
  | AwaitPc.returned _ _ => s
  | AwaitPc.panicked => s

/-- A goroutine entering `Await` on `prom`. -/
def awaitInit {σ T E : Type} (prom : Promise σ T E) (env : σ) : AwaitState σ T E :=
  { prom := prom, pc := AwaitPc.select, env := env, calls := [] }

/-- The method `Await` run with no other goroutine touching the promise. The longest
path through the body is three steps (select, second receive, settle); a state that is
neither returned nor panicked after them is blocked for good. -/
def Promise.Await {σ T E : Type} [Inhabited T] (prom : Promise σ T E) (pick : Bool) (env : σ) :
    AwaitState σ T E :=
  awaitStep pick (awaitStep pick (awaitStep pick (awaitInit prom env)))

/-- What the caller of `Await` observes. -/
inductive Outcome (T E : Type) where
  | returned (resultT : T) (resultE : Option E)
  | blocked
  | panicked

/-- The outcome a finished run of `Await` stands for. -/
def AwaitState.outcome {σ T E : Type} (s : AwaitState σ T E) : Outcome T E :=
  match s.pc with
  | AwaitPc.returned t e => Outcome.returned t e
  | AwaitPc.panicked => Outcome.panicked
  | _ => Outcome.blocked

/-! ## New: a producer goroutine racing with Await -/

/-- The promise returned by `New` (promise.go lines 16-22 and 33): two fresh one-slot
channels and empty callback slices. The goroutine started at line 23 is part of
`NewState`. -/
def New {σ T E : Type} : Promise σ T E :=
  { result := Chan.make T 1
    fail := Chan.make (Option E) 1
    thens := []
    catches := []
    finallys := [] }

/-- The single settlement call that the handler passed to `New` makes. -/
inductive Settlement (T E : Type) where
  | resolve (t : T)
  | reject (e : Option E)

/-- Program counter of the goroutine `go handler(resolve, reject)` inside the closure
it calls: before its first channel operation (line 25 or 29), before its second
(line 26 or 30), finished, or panicked. -/
inductive ProducerPc where
  | first
  | second
  | finished
  | panicked

/-- A promise made by `New` together with its producer goroutine and the goroutine
that awaits it. -/
structure NewState (σ T E : Type) where
  handler : Settlement T E
  producer : ProducerPc
  awaiter : AwaitState σ T E

/-- Which goroutine of a `NewState` moves next; the awaiter carries its `select` pick. -/
inductive NewTid where
  | producer
  | awaiter (pick : Bool)

/-- One channel operation of the producer: the closures of lines 24-27 and 28-31. -/
def producerStep {σ T E : Type} (s : NewState σ T E) : NewState σ T E :=
  match s.producer, s.handler with
  | ProducerPc.first, Settlement.resolve t =>
    -- prom.result <- t
    match s.awaiter.prom.result.send t with
    | Res.done c =>
      { s with awaiter := { s.awaiter with prom := { s.awaiter.prom with result := c } },
               producer := ProducerPc.second }
    | Res.blocked => s
    | Res.panicked => { s with producer := ProducerPc.panicked }
  | ProducerPc.second, Settlement.resolve _ =>
    -- close(prom.fail)
    match s.awaiter.prom.fail.close with
    | Res.done c =>
      { s with awaiter := { s.awaiter with prom := { s.awaiter.prom with fail := c } },
               producer := ProducerPc.finished }
    | _ => { s with producer := ProducerPc.panicked }
  | ProducerPc.first, Settlement.reject _ =>
    -- close(prom.result)
    match s.awaiter.prom.result.close with
    | Res.done c =>
      { s with awaiter := { s.awaiter with prom := { s.awaiter.prom with result := c } },
               producer := ProducerPc.second }
    | _ => { s with producer := ProducerPc.panicked }
  | ProducerPc.second, Settlement.reject e =>
    -- prom.fail <- e
    match s.awaiter.prom.fail.send e with
    | Res.done c =>
      { s with awaiter := { s.awaiter with prom := { s.awaiter.prom with fail := c } },
               producer := ProducerPc.finished }
    | Res.blocked => s
    | Res.panicked => { s with producer := ProducerPc.panicked }
  | _, _ => s

/-- Whether a goroutine of the system has panicked; an unrecovered panic ends the process. -/
def NewState.crashed {σ T E : Type} (s : NewState σ T E) : Bool :=
  (match s.producer with
   | ProducerPc.panicked => true
   | _ => false) ||
  (match s.awaiter.pc with
   | AwaitPc.panicked => true
   | _ => false)

/-- One scheduler step of the `New` system. -/
def newStep {σ T E : Type} [Inhabited T] (tid : NewTid) (s : NewState σ T E) : NewState σ T E :=
  if s.crashed then s
  else
    match tid with
    | NewTid.producer => producerStep s
    | NewTid.awaiter pick => { s with awaiter := awaitStep pick s.awaiter }

/-- Run a schedule. -/
def newRun {σ T E : Type} [Inhabited T] (sched : List NewTid) (s : NewState σ T E) :
    NewState σ T E :=
  sched.foldl (fun st tid => newStep tid st) s

/-- The system right after `New(handler)` returned `prom` and the caller, having
registered the given callbacks, enters `Await`. -/
def newInit {σ T E : Type} (handler : Settlement T E) (thens : List (T → σ → σ))
    (catches : List (Option E → σ → σ)) (finallys : List (σ → σ)) (env : σ) : NewState σ T E :=
  { handler := handler
    producer := ProducerPc.first
    awaiter := awaitInit { (New : Promise σ T E) with
                           thens := thens, catches := catches, finallys := finallys } env }

/-- The pair `Await` is expected to return for a settlement. -/
def Settlement.expected {T E : Type} [Inhabited T] : Settlement T E → T × Option E
  | Settlement.resolve t => (t, none)
  | Settlement.reject e => (default, e)

/-! ## All: watcher goroutines racing with Await on the aggregate promise -/

/-- Program counter of one watcher goroutine of `All` (promise.go lines 129-147). -/
inductive WatcherPc (σ T E : Type) where
  /-- About to run `t, err := each.Await()` (line 132). -/
  | start (each : Promise σ T E)
  /-- At `close(prom.result)` (line 135), holding `err`. -/
  | closeResult (err : Option E)
  /-- At `prom.fail <- err` (line 136). -/
  | sendFail (err : Option E)
  /-- At `mtx.Lock()` (line 139), holding `t`. -/
  | lock (t : T)
  /-- Holding the mutex, at `data = append(data, t)` and the test of line 141. -/
  | append (t : T)
  /-- Holding the mutex, at `prom.result <- data` (line 143). -/
  | sendResult
  /-- Holding the mutex, at `close(prom.fail)` (line 144). -/
  | closeFail
  /-- Holding the mutex, at `mtx.Unlock()` (line 146). -/
  | unlock
  /-- The goroutine returned. -/
  | finished

/-- The shared state of one call of `All`: `len(promises)`, the slice `data`, the mutex,
the watcher goroutines, the aggregate promise with the goroutine awaiting it, and whether
a watcher panicked. -/
structure AllState (σ T E : Type) where
  total : Nat
  data : List T
  mtx : Bool
  watchers : List (WatcherPc σ T E)
  awaiter : AwaitState σ (List T) E
  crashed : Bool

/-- Which goroutine of an `AllState` moves next. -/
inductive AllTid where
  | watcher (i : Nat)
  | awaiter

/-- A watcher panicked. Line 131 reads `defer recover()`: the deferred call is `recover`
itself, not a function that calls `recover`, so it returns nil and does not stop the
panic; the panic is unrecovered and ends the process. -/
def AllState.crash {σ T E : Type} (s : AllState σ T E) : AllState σ T E :=
  { s with crashed := true }

/-- Move watcher `i` to program counter `w`. -/
def AllState.goto {σ T E : Type} (s : AllState σ T E) (i : Nat) (w : WatcherPc σ T E) :
    AllState σ T E :=
  { s with watchers := s.watchers.set i w }

/-- One atomic step of watcher `i`, currently at `w`. The input promises are settled and
touched by their own watcher only, so `each.Await()` is run as one step. The send on the
unbuffered `prom.result` completes only as a hand-over to the goroutine waiting in
`Await` at a receive from `prom.result` (the `select` or line 79). -/
def watcherAct {σ T E : Type} [Inhabited T] (i : Nat) (pick : Bool) (w : WatcherPc σ T E)
    (s : AllState σ T E) : AllState σ T E :=
  match w with
  | WatcherPc.start each =>
    let r := each.Await pick s.awaiter.env
    match r.pc with
    | AwaitPc.returned t err =>
      let s1 := { s with awaiter := { s.awaiter with env := r.env } }
      -- if err != nil
      if err.isSome then s1.goto i (WatcherPc.closeResult err)
      else s1.goto i (WatcherPc.lock t)
    | AwaitPc.panicked => s.crash
    | _ => s
  | WatcherPc.closeResult err =>
    match s.awaiter.prom.result.close with
    | Res.done c =>
      { s with awaiter := { s.awaiter with prom := { s.awaiter.prom with result := c } },
               watchers := s.watchers.set i (WatcherPc.sendFail err) }
    | _ => s.crash
  | WatcherPc.sendFail err =>
    match s.awaiter.prom.fail.send err with
    | Res.done c =>
      { s with awaiter := { s.awaiter with prom := { s.awaiter.prom with fail := c } },
               watchers := s.watchers.set i WatcherPc.finished }
    | Res.blocked => s
    | Res.panicked => s.crash
  | WatcherPc.lock t =>
    if s.mtx then s
    else { s with mtx := true, watchers := s.watchers.set i (WatcherPc.append t) }
  | WatcherPc.append t =>
    let data := s.data ++ [t]
    if data.length = s.total then
      { s with data := data, watchers := s.watchers.set i WatcherPc.sendResult }
    else
      { s with data := data, watchers := s.watchers.set i WatcherPc.unlock }
  | WatcherPc.sendResult =>
    match s.awaiter.prom.result.send s.data with
    | Res.done c =>
      { s with awaiter := { s.awaiter with prom := { s.awaiter.prom with result := c } },
               watchers := s.watchers.set i WatcherPc.closeFail }
    | Res.panicked => s.crash
    | Res.blocked =>
      if s.awaiter.prom.result.buf.isEmpty then
        match s.awaiter.pc with
        | AwaitPc.select =>
          { s with awaiter := { s.awaiter with pc := AwaitPc.settle false s.data none },
                   watchers := s.watchers.set i WatcherPc.closeFail }
        | AwaitPc.recvResult =>
          { s with awaiter := { s.awaiter with pc := AwaitPc.settle false s.data none },
                   watchers := s.watchers.set i WatcherPc.closeFail }
        | _ => s
      else s
  | WatcherPc.closeFail =>
    match s.awaiter.prom.fail.close with
    | Res.done c =>
      { s with awaiter := { s.awaiter with prom := { s.awaiter.prom with fail := c } },
               watchers := s.watchers.set i WatcherPc.unlock }
    | _ => s.crash
  | WatcherPc.unlock =>
    { s with mtx := false, watchers := s.watchers.set i WatcherPc.finished }
  | WatcherPc.finished => s

/-- Whether the process is dead: a watcher panicked or `Await` panicked. -/
def AllState.dead {σ T E : Type} (s : AllState σ T E) : Bool :=
  s.crashed ||
  (match s.awaiter.pc with
   | AwaitPc.panicked => true
   | _ => false)

/-- One scheduler step of the `All` system; `pick` is the `select` preference of the
`Await` the chosen goroutine may run. -/
def allStep {σ T E : Type} [Inhabited T] (tp : AllTid × Bool) (s : AllState σ T E) :
    AllState σ T E :=
  if s.dead then s
  else
    match tp.1 with
    | AllTid.watcher i =>
      match s.watchers[i]? with
      | some w => watcherAct i tp.2 w s
      | none => s
    | AllTid.awaiter => { s with awaiter := awaitStep tp.2 s.awaiter }

/-- Run a schedule. -/
def allRun {σ T E : Type} [Inhabited T] (sched : List (AllTid × Bool)) (s : AllState σ T E) :
    AllState σ T E :=
  sched.foldl (fun st tp => allStep tp st) s

/-- The function `All` (promise.go lines 117-151) followed by the caller entering `Await`
on the returned promise: one watcher per input promise, an unbuffered `result` channel,
a one-slot `fail` channel, empty `data`, a free mutex. -/
def All {σ T E : Type} (promises : List (Promise σ T E)) (env : σ) : AllState σ T E :=
  { total := promises.length
    data := []
    mtx := false
    watchers := promises.map WatcherPc.start
    awaiter := awaitInit { result := Chan.make (List T) 0
                           fail := Chan.make (Option E) 1
                           thens := []
                           catches := []
                           finallys := [] } env
    crashed := false }

/-! ## Predicates, call logs and invariants used in the theorems -/

/-- State of a promise that was fulfilled with `v` and not yet awaited: the value sits in
`result`, and `fail` is closed (what `Resolve(v)` and a finished `resolve(v)` leave). -/
def Promise.Fulfilled {σ T E : Type} (p : Promise σ T E) (v : T) : Prop :=
  p.result.buf = [v] ∧ p.result.closed = false ∧ p.fail.buf = [] ∧ p.fail.closed = true

/-- State of a promise that was rejected with `e` and not yet awaited: `result` is closed
and the error sits in `fail` (what `Reject(e)` and a finished `reject(e)` leave). -/
def Promise.Rejected {σ T E : Type} (p : Promise σ T E) (e : Option E) : Prop :=
  p.result.buf = [] ∧ p.result.closed = true ∧ p.fail.buf = [e] ∧ p.fail.closed = false

/-- State of a promise whose settlement was consumed by an `Await`: both channels are
closed and empty. -/
def Promise.Drained {σ T E : Type} (p : Promise σ T E) : Prop :=
  p.result.buf = [] ∧ p.result.closed = true ∧ p.fail.buf = [] ∧ p.fail.closed = true

/-- The log of calling the first `n` Then callbacks with `v`, in slice order. -/
def thenCalls {T E : Type} (n : Nat) (v : T) : List (Call T E) :=
  (List.range n).map (fun i => Call.thenCall i v)

/-- The log of calling the first `n` Catch callbacks with `e`, in slice order. -/
def catchCalls {T E : Type} (n : Nat) (e : Option E) : List (Call T E) :=
  (List.range n).map (fun i => Call.catchCall i e)

/-- The log of calling the first `n` Finally callbacks, in slice order. -/
def finallyCalls {T E : Type} (n : Nat) : List (Call T E) :=
  (List.range n).map (fun i => Call.finallyCall i)

/-- Whether a log entry is a call of a Finally callback. -/
def Call.isFinally {T E : Type} : Call T E → Bool
  | Call.finallyCall _ => true
  | _ => false

/-- Invariant of the `New` system: for each pair of program counters, the contents of
the two channels; pairs not listed are unreachable. -/
def NewInv {σ T E : Type} [Inhabited T] (s : NewState σ T E) : Prop :=
  s.awaiter.prom.result.cap = 1 ∧ s.awaiter.prom.fail.cap = 1 ∧
  match s.handler with
  | Settlement.resolve t =>
    s.awaiter.prom.fail.buf = [] ∧
    match s.producer, s.awaiter.pc with
    | ProducerPc.first, AwaitPc.select =>
      s.awaiter.prom.result.buf = [] ∧ s.awaiter.prom.result.closed = false ∧
        s.awaiter.prom.fail.closed = false
    | ProducerPc.second, AwaitPc.select =>
      s.awaiter.prom.result.buf = [t] ∧ s.awaiter.prom.result.closed = false ∧
        s.awaiter.prom.fail.closed = false
    | ProducerPc.second, AwaitPc.settle c t1 e1 =>
      c = false ∧ t1 = t ∧ e1 = none ∧ s.awaiter.prom.result.buf = [] ∧
        s.awaiter.prom.result.closed = false ∧ s.awaiter.prom.fail.closed = false
    | ProducerPc.second, AwaitPc.returned t1 e1 =>
      t1 = t ∧ e1 = none ∧ s.awaiter.prom.result.buf = [] ∧
        s.awaiter.prom.result.closed = true ∧ s.awaiter.prom.fail.closed = false
    | ProducerPc.finished, AwaitPc.select =>
      s.awaiter.prom.result.buf = [t] ∧ s.awaiter.prom.result.closed = false ∧
        s.awaiter.prom.fail.closed = true
    | ProducerPc.finished, AwaitPc.recvResult =>
      s.awaiter.prom.result.buf = [t] ∧ s.awaiter.prom.result.closed = false ∧
        s.awaiter.prom.fail.closed = true
    | ProducerPc.finished, AwaitPc.settle c t1 e1 =>
      c = false ∧ t1 = t ∧ e1 = none ∧ s.awaiter.prom.result.buf = [] ∧
        s.awaiter.prom.result.closed = false ∧ s.awaiter.prom.fail.closed = true
    | ProducerPc.finished, AwaitPc.returned t1 e1 =>
      t1 = t ∧ e1 = none ∧ s.awaiter.prom.result.buf = [] ∧
        s.awaiter.prom.result.closed = true ∧ s.awaiter.prom.fail.closed = true
    | _, _ => False
  | Settlement.reject e =>
    s.awaiter.prom.result.buf = [] ∧
    match s.producer, s.awaiter.pc with
    | ProducerPc.first, AwaitPc.select =>
      s.awaiter.prom.fail.buf = [] ∧ s.awaiter.prom.fail.closed = false ∧
        s.awaiter.prom.result.closed = false
    | ProducerPc.second, AwaitPc.select =>
      s.awaiter.prom.fail.buf = [] ∧ s.awaiter.prom.fail.closed = false ∧
        s.awaiter.prom.result.closed = true
    | ProducerPc.second, AwaitPc.recvFail =>
      s.awaiter.prom.fail.buf = [] ∧ s.awaiter.prom.fail.closed = false ∧
        s.awaiter.prom.result.closed = true
    | ProducerPc.finished, AwaitPc.select =>
      s.awaiter.prom.fail.buf = [e] ∧ s.awaiter.prom.fail.closed = false ∧
        s.awaiter.prom.result.closed = true
    | ProducerPc.finished, AwaitPc.recvFail =>
      s.awaiter.prom.fail.buf = [e] ∧ s.awaiter.prom.fail.closed = false ∧
        s.awaiter.prom.result.closed = true
    | ProducerPc.finished, AwaitPc.settle c t1 e1 =>
      c = true ∧ t1 = default ∧ e1 = e ∧ s.awaiter.prom.fail.buf = [] ∧
        s.awaiter.prom.fail.closed = false ∧ s.awaiter.prom.result.closed = true
    | ProducerPc.finished, AwaitPc.returned t1 e1 =>
      t1 = default ∧ e1 = e ∧ s.awaiter.prom.fail.buf = [] ∧
        s.awaiter.prom.fail.closed = true ∧ s.awaiter.prom.result.closed = true
    | _, _ => False

/-- The value a watcher still has to append to `data`: the one buffered in its input
promise, or the one it holds before and during the append. -/
def WatcherPc.pending {σ T E : Type} : WatcherPc σ T E → List T
  | WatcherPc.start each => each.result.buf
  | WatcherPc.lock t => [t]
  | WatcherPc.append t => [t]
  | _ => []

/-- All values the watchers still have to append, in watcher order. -/
def pendingAll {σ T E : Type} : List (WatcherPc σ T E) → List T
  | [] => []
  | w :: ws => w.pending ++ pendingAll ws

/-- Whether the watcher is between `mtx.Lock()` and `mtx.Unlock()`. -/
def WatcherPc.inCrit {σ T E : Type} : WatcherPc σ T E → Bool
  | WatcherPc.append _ => true
  | WatcherPc.sendResult => true
  | WatcherPc.closeFail => true
  | WatcherPc.unlock => true
  | _ => false

/-- Whether the watcher is at `prom.result <- data`. -/
def WatcherPc.atSend {σ T E : Type} : WatcherPc σ T E → Bool
  | WatcherPc.sendResult => true
  | _ => false

/-- Whether the watcher is at `close(prom.fail)`. -/
def WatcherPc.atCloseFail {σ T E : Type} : WatcherPc σ T E → Bool
  | WatcherPc.closeFail => true
  | _ => false

/-- A watcher on the success path: its input promise is fulfilled and unawaited, and it
is not on the failure path of lines 135-137. -/
def WatcherPc.onSuccessPath {σ T E : Type} : WatcherPc σ T E → Prop
  | WatcherPc.start each => ∃ v, each.Fulfilled v
  | WatcherPc.closeResult _ => False
  | WatcherPc.sendFail _ => False
  | _ => True

/-- Number of statements a watcher on the success path has left. -/
def WatcherPc.rank {σ T E : Type} : WatcherPc σ T E → Nat
  | WatcherPc.start _ => 6
  | WatcherPc.lock _ => 5
  | WatcherPc.append _ => 4
  | WatcherPc.sendResult => 3
  | WatcherPc.closeFail => 2
  | WatcherPc.unlock => 1
  | _ => 0

/-- Whether a watcher on the success path can take a step: a watcher at `mtx.Lock()`
needs the mutex free, a finished watcher has no step. -/
def WatcherPc.canMove {σ T E : Type} (mtx : Bool) : WatcherPc σ T E → Prop
  | WatcherPc.lock _ => mtx = false
  | WatcherPc.finished => False
  | _ => True

/-- Number of steps `Await` has left once its receive is served. -/
def AwaitPc.rank {T E : Type} : AwaitPc T E → Nat
  | AwaitPc.select => 2
  | AwaitPc.recvFail => 2
  | AwaitPc.recvResult => 2
  | AwaitPc.settle _ _ _ => 1
  | _ => 0

/-- Total number of steps left in an `All` system whose inputs are all fulfilled. -/
def AllState.rank {σ T E : Type} (s : AllState σ T E) : Nat :=
  (s.watchers.map WatcherPc.rank).sum + s.awaiter.pc.rank

/-- The three phases of an `All` whose inputs are all fulfilled: collecting values;
the last watcher offering `data` on `prom.result`; `data` handed over to `Await`. -/
def AllPhase {σ T E : Type} (s : AllState σ T E) : Prop :=
  (s.data.length < s.total ∧ s.awaiter.pc = AwaitPc.select ∧
    s.awaiter.prom.result.closed = false ∧ s.awaiter.prom.fail.closed = false ∧
    s.watchers.countP WatcherPc.atSend = 0 ∧ s.watchers.countP WatcherPc.atCloseFail = 0) ∨
  (s.data.length = s.total ∧ s.awaiter.pc = AwaitPc.select ∧
    s.awaiter.prom.result.closed = false ∧ s.awaiter.prom.fail.closed = false ∧
    s.watchers.countP WatcherPc.atSend = 1 ∧ s.watchers.countP WatcherPc.atCloseFail = 0) ∨
  (s.data.length = s.total ∧ s.watchers.countP WatcherPc.atSend = 0 ∧
    ((s.watchers.countP WatcherPc.atCloseFail = 1 ∧ s.awaiter.prom.fail.closed = false) ∨
      (s.watchers.countP WatcherPc.atCloseFail = 0 ∧ s.awaiter.prom.fail.closed = true)) ∧
    ((s.awaiter.pc = AwaitPc.settle false s.data none ∧
        s.awaiter.prom.result.closed = false) ∨
      (s.awaiter.pc = AwaitPc.returned s.data none ∧
        s.awaiter.prom.result.closed = true)))

/-- Invariant of `All` over fulfilled inputs holding the values `vs`. -/
structure AllInv {σ T E : Type} (vs : List T) (s : AllState σ T E) : Prop where
  crashed : s.crashed = false
  total : s.total = vs.length
  good : ∀ w ∈ s.watchers, w.onSuccessPath
  perm : (s.data ++ pendingAll s.watchers).Perm vs
  mtx : s.watchers.countP WatcherPc.inCrit = if s.mtx then 1 else 0
  resBuf : s.awaiter.prom.result.buf = []
  resCap : s.awaiter.prom.result.cap = 0
  failBuf : s.awaiter.prom.fail.buf = []
  phase : AllPhase s

/-! ## Theorems -/

theorem fireThen_eq {σ T E : Type} (fs : List (T → σ → σ)) (t : T) (i : Nat) (env : σ)
    (log : List (Call T E)) :
    fireThen fs t i env log =
      (fs.foldl (fun s f => f t s) env,
       log ++ (List.range' i fs.length).map (fun j => Call.thenCall j t)) := by
  induction fs generalizing i env log with
  | nil => simp [fireThen]
  | cons f rest ih => simp [fireThen, ih, List.range'_succ]

theorem fireCatch_eq {σ T E : Type} (fs : List (Option E → σ → σ)) (e : Option E) (i : Nat)
    (env : σ) (log : List (Call T E)) :
    fireCatch fs e i env log =
      (fs.foldl (fun s f => f e s) env,
       log ++ (List.range' i fs.length).map (fun j => Call.catchCall j e)) := by
  induction fs generalizing i env log with
  | nil => simp [fireCatch]
  | cons f rest ih => simp [fireCatch, ih, List.range'_succ]

theorem fireFinally_eq {σ T E : Type} (fs : List (σ → σ)) (i : Nat) (env : σ)
    (log : List (Call T E)) :
    fireFinally fs i env log =
      (fs.foldl (fun s f => f s) env,
       log ++ (List.range' i fs.length).map (fun j => Call.finallyCall j)) := by
  induction fs generalizing i env log with
  | nil => simp [fireFinally]
  | cons f rest ih => simp [fireFinally, ih, List.range'_succ]

/-- The complete state `Await` leaves on a fulfilled promise. -/
theorem Await_of_fulfilled {σ T E : Type} [Inhabited T] (p : Promise σ T E) (v : T)
    (pick : Bool) (env : σ) (h : p.Fulfilled v) :
    p.Await pick env =
      { prom := { p with result := { p.result with buf := [], closed := true } }
        pc := AwaitPc.returned v none
        env := p.finallys.foldl (fun s f => f s) (p.thens.foldl (fun s f => f v s) env)
        calls := thenCalls p.thens.length v ++ finallyCalls p.finallys.length } := by
  obtain ⟨⟨rc, rb, rcl⟩, ⟨fc, fb, fcl⟩, ts, cs, fs⟩ := p
  obtain ⟨h1, h2, h3, h4⟩ := h
  simp only at h1 h2 h3 h4
  subst h1 h2 h3 h4
  cases pick <;>
    simp [Promise.Await, awaitInit, awaitStep, Chan.ready, Chan.recv, Chan.close, fireThen_eq,
      fireFinally_eq, thenCalls, finallyCalls, List.range_eq_range']

/-- The complete state `Await` leaves on a rejected promise. -/
theorem Await_of_rejected {σ T E : Type} [Inhabited T] (p : Promise σ T E) (e : Option E)
    (pick : Bool) (env : σ) (h : p.Rejected e) :
    p.Await pick env =
      { prom := { p with fail := { p.fail with buf := [], closed := true } }
        pc := AwaitPc.returned default e
        env := p.finallys.foldl (fun s f => f s) (p.catches.foldl (fun s f => f e s) env)
        calls := catchCalls p.catches.length e ++ finallyCalls p.finallys.length } := by
  obtain ⟨⟨rc, rb, rcl⟩, ⟨fc, fb, fcl⟩, ts, cs, fs⟩ := p
  obtain ⟨h1, h2, h3, h4⟩ := h
  simp only at h1 h2 h3 h4
  subst h1 h2 h3 h4
  cases pick <;>
    simp [Promise.Await, awaitInit, awaitStep, Chan.ready, Chan.recv, Chan.close, fireCatch_eq,
      fireFinally_eq, catchCalls, finallyCalls, List.range_eq_range']

/-- On a promise whose two channels are closed and empty, `Await` fires the Catch
callbacks with nil (result case) or the Then callbacks with the zero value (fail case)
and then panics closing a closed channel. -/
theorem Await_of_drained {σ T E : Type} [Inhabited T] (p : Promise σ T E)
    (pick : Bool) (env : σ) (h : p.Drained) :
    p.Await pick env =
      { prom := p
        pc := AwaitPc.panicked
        env := if pick then p.catches.foldl (fun s f => f none s) env
               else p.thens.foldl (fun s f => f default s) env
        calls := if pick then catchCalls p.catches.length none
                 else thenCalls p.thens.length default } := by
  obtain ⟨⟨rc, rb, rcl⟩, ⟨fc, fb, fcl⟩, ts, cs, fs⟩ := p
  obtain ⟨h1, h2, h3, h4⟩ := h
  simp only at h1 h2 h3 h4
  subst h1 h2 h3 h4
  cases pick
  · simp [Promise.Await, awaitInit, awaitStep, Chan.ready, Chan.recv, Chan.close,
      fireThen_eq, thenCalls, List.range_eq_range']
  · simp [Promise.Await, awaitInit, awaitStep, Chan.ready, Chan.recv, Chan.close,
      fireCatch_eq, catchCalls, List.range_eq_range']
    exact ⟨rfl, fun _ _ => rfl⟩

theorem Resolve_fulfilled {σ T E : Type} (v : T) : (Resolve v : Promise σ T E).Fulfilled v :=
  ⟨rfl, rfl, rfl, rfl⟩

theorem Reject_rejected {σ T E : Type} (e : Option E) : (Reject e : Promise σ T E).Rejected e :=
  ⟨rfl, rfl, rfl, rfl⟩

/-- C1: for every value `v` and either pick of the `select`, the first `Await` on
`Resolve(v)` returns `(v, nil)`. -/
theorem Resolve_Await_returns {σ T E : Type} [Inhabited T] (v : T) (pick : Bool) (env : σ) :
    ((Resolve v : Promise σ T E).Await pick env).outcome = Outcome.returned v none := by
  rw [Await_of_fulfilled _ v pick env (Resolve_fulfilled v)]
  rfl

/-- C2: for every error `e` and either pick of the `select`, the first `Await` on
`Reject(e)` returns the zero value of `T` together with `e`. -/
theorem Reject_Await_returns {σ T E : Type} [Inhabited T] (e : Option E) (pick : Bool)
    (env : σ) :
    ((Reject e : Promise σ T E).Await pick env).outcome = Outcome.returned default e := by
  rw [Await_of_rejected _ e pick env (Reject_rejected e)]
  rfl

/-- The second `Await` on a drained promise up to line 82: whichever case the `select`
takes, the receive reports `ok = false`, the other channel is read, and the goroutine holds
the zero value and a nil error; `isCatched` is set exactly when the result case was taken. -/
theorem awaitStep_twice_of_drained {σ T E : Type} [Inhabited T] (p : Promise σ T E)
    (pick : Bool) (env : σ) (h : p.Drained) :
    awaitStep pick (awaitStep pick (awaitInit p env)) =
      { prom := p, pc := AwaitPc.settle pick default none, env := env, calls := [] } := by
  obtain ⟨⟨rc, rb, rcl⟩, ⟨fc, fb, fcl⟩, ts, cs, fs⟩ := p
  obtain ⟨h1, h2, h3, h4⟩ := h
  simp only at h1 h2 h3 h4
  subst h1 h2 h3 h4
  cases pick
  · simp [awaitInit, awaitStep, Chan.ready, Chan.recv]
  · simp [awaitInit, awaitStep, Chan.ready, Chan.recv]
    rfl

/-- C3 (what the code does instead): on a settled promise, fulfilled with `v` or rejected
with `e`, carrying any callbacks, the first `Await` returns the settlement and leaves both
channels closed and empty. The second `Await` does not return: whichever case its `select`
takes it reaches line 82 holding the zero value and a nil error, calls callbacks again (the
Catch callbacks with nil in the result case, the Then callbacks with the zero value in the
fail case, each applied to the environment in slice order), and then panics on closing an
already closed channel (line 87 or 94). -/
theorem Await_twice_panics {σ T E : Type} [Inhabited T] (p : Promise σ T E) (v : T)
    (e : Option E) (pick1 pick2 : Bool) (env : σ) (h : p.Fulfilled v ∨ p.Rejected e) :
    (p.Fulfilled v → (p.Await pick1 env).outcome = Outcome.returned v none) ∧
    (p.Rejected e → (p.Await pick1 env).outcome = Outcome.returned default e) ∧
    (p.Await pick1 env).prom.Drained ∧
    (awaitStep pick2 (awaitStep pick2
        (awaitInit (p.Await pick1 env).prom (p.Await pick1 env).env))).pc
      = AwaitPc.settle pick2 default none ∧
    ((p.Await pick1 env).prom.Await pick2 (p.Await pick1 env).env).outcome
      = Outcome.panicked ∧
    ((p.Await pick1 env).prom.Await pick2 (p.Await pick1 env).env).calls =
      (if pick2 then catchCalls p.catches.length none
       else thenCalls p.thens.length default) ∧
    ((p.Await pick1 env).prom.Await pick2 (p.Await pick1 env).env).env =
      (if pick2 then p.catches.foldl (fun s f => f none s) (p.Await pick1 env).env
       else p.thens.foldl (fun s f => f default s) (p.Await pick1 env).env) := by
  have hd : (p.Await pick1 env).prom.Drained := by
    rcases h with h | h
    · rw [Await_of_fulfilled p v pick1 env h]; exact ⟨rfl, rfl, h.2.2.1, h.2.2.2⟩
    · rw [Await_of_rejected p e pick1 env h]; exact ⟨h.1, h.2.1, rfl, rfl⟩
  have hc : (p.Await pick1 env).prom.catches = p.catches := by
    rcases h with h | h
    · rw [Await_of_fulfilled p v pick1 env h]
    · rw [Await_of_rejected p e pick1 env h]
  have ht : (p.Await pick1 env).prom.thens = p.thens := by
    rcases h with h | h
    · rw [Await_of_fulfilled p v pick1 env h]
    · rw [Await_of_rejected p e pick1 env h]
  have h2 := Await_of_drained (p.Await pick1 env).prom pick2 (p.Await pick1 env).env hd
  refine ⟨fun hf => ?_, fun hr => ?_, hd, ?_, ?_, ?_, ?_⟩
  · rw [Await_of_fulfilled p v pick1 env hf]
    rfl
  · rw [Await_of_rejected p e pick1 env hr]
    rfl
  · rw [awaitStep_twice_of_drained _ pick2 _ hd]
  · rw [h2]
    rfl
  · rw [h2]
    simp only [hc, ht]
  · rw [h2]
    simp only [hc, ht]

/-- Witness for C3: `Resolve(1).Then(f)` with `f` adding its argument plus 10 to a
counter. The first `Await` returns `(1, nil)` with the counter at 11; the second `Await`
calls `f` again, with 0 (counter 21), and panics. -/
theorem Await_twice_panics_witness :
    (((Resolve 1 : Promise Nat Nat Unit).Then (fun t n => n + t + 10)).Fulfilled 1 ∨
      ((Resolve 1 : Promise Nat Nat Unit).Then (fun t n => n + t + 10)).Rejected none) ∧
    (((Resolve 1 : Promise Nat Nat Unit).Then (fun t n => n + t + 10)).Await true 0).outcome
      = Outcome.returned 1 none ∧
    ((((Resolve 1 : Promise Nat Nat Unit).Then (fun t n => n + t + 10)).Await true 0).prom.Await
        false
        (((Resolve 1 : Promise Nat Nat Unit).Then (fun t n => n + t + 10)).Await true 0).env).outcome
      = Outcome.panicked ∧
    ((((Resolve 1 : Promise Nat Nat Unit).Then (fun t n => n + t + 10)).Await true 0).prom.Await
        false
        (((Resolve 1 : Promise Nat Nat Unit).Then (fun t n => n + t + 10)).Await true 0).env).calls
      = [Call.thenCall 0 0] ∧
    ((((Resolve 1 : Promise Nat Nat Unit).Then (fun t n => n + t + 10)).Await true 0).prom.Await
        false
        (((Resolve 1 : Promise Nat Nat Unit).Then (fun t n => n + t + 10)).Await true 0).env).env
      = 21 :=
  ⟨Or.inl ⟨rfl, rfl, rfl, rfl⟩,
   (Await_twice_panics ((Resolve 1 : Promise Nat Nat Unit).Then (fun t n => n + t + 10)) 1
      none true false 0 (Or.inl ⟨rfl, rfl, rfl, rfl⟩)).1 ⟨rfl, rfl, rfl, rfl⟩,
   (Await_twice_panics ((Resolve 1 : Promise Nat Nat Unit).Then (fun t n => n + t + 10)) 1
      none true false 0 (Or.inl ⟨rfl, rfl, rfl, rfl⟩)).2.2.2.2.1,
   (Await_twice_panics ((Resolve 1 : Promise Nat Nat Unit).Then (fun t n => n + t + 10)) 1
      none true false 0 (Or.inl ⟨rfl, rfl, rfl, rfl⟩)).2.2.2.2.2.1,
   (Await_twice_panics ((Resolve 1 : Promise Nat Nat Unit).Then (fun t n => n + t + 10)) 1
      none true false 0 (Or.inl ⟨rfl, rfl, rfl, rfl⟩)).2.2.2.2.2.2⟩

/-- C8: on a promise fulfilled with `v`, the first `Await` returns `(v, nil)` having
called every Then callback exactly once with `v`, in registration order, followed only by
the Finally callbacks; no Catch callback is called. The callbacks' effect on the
environment is the same left-to-right composition. -/
theorem Await_fulfilled_fires_then {σ T E : Type} [Inhabited T] (p : Promise σ T E) (v : T)
    (pick : Bool) (env : σ) (h : p.Fulfilled v) :
    (p.Await pick env).outcome = Outcome.returned v none ∧
    (p.Await pick env).calls = thenCalls p.thens.length v ++ finallyCalls p.finallys.length ∧
    (p.Await pick env).env =
      p.finallys.foldl (fun s f => f s) (p.thens.foldl (fun s f => f v s) env) := by
  rw [Await_of_fulfilled p v pick env h]
  exact ⟨rfl, rfl, rfl⟩

/-- Witness for C8: the promise of `TestThen`, with a Catch callback added. -/
theorem Await_fulfilled_fires_then_witness :
    (((Resolve "Hello, World" : Promise (List String) String Unit).Then
        (fun t log => log ++ [t])).Catch (fun _ log => log ++ ["catch"])).Fulfilled
      "Hello, World" ∧
    ((((Resolve "Hello, World" : Promise (List String) String Unit).Then
        (fun t log => log ++ [t])).Catch (fun _ log => log ++ ["catch"])).Await true []).env
      = ["Hello, World"] :=
  ⟨⟨rfl, rfl, rfl, rfl⟩,
   (Await_fulfilled_fires_then
      (((Resolve "Hello, World" : Promise (List String) String Unit).Then
        (fun t log => log ++ [t])).Catch (fun _ log => log ++ ["catch"]))
      "Hello, World" true [] ⟨rfl, rfl, rfl, rfl⟩).2.2⟩

/-- C9: on a promise rejected with `e`, the first `Await` returns the zero value and `e`
having called every Catch callback exactly once with `e`, in registration order, followed
only by the Finally callbacks; no Then callback is called. -/
theorem Await_rejected_fires_catch {σ T E : Type} [Inhabited T] (p : Promise σ T E)
    (e : Option E) (pick : Bool) (env : σ) (h : p.Rejected e) :
    (p.Await pick env).outcome = Outcome.returned default e ∧
    (p.Await pick env).calls = catchCalls p.catches.length e ++ finallyCalls p.finallys.length ∧
    (p.Await pick env).env =
      p.finallys.foldl (fun s f => f s) (p.catches.foldl (fun s f => f e s) env) := by
  rw [Await_of_rejected p e pick env h]
  exact ⟨rfl, rfl, rfl⟩

/-- Witness for C9: the promise of `TestCatch`, with a Then callback added. -/
theorem Await_rejected_fires_catch_witness :
    (((Reject (some "Hello, Error!") : Promise (List String) Nat String).Then
        (fun _ log => log ++ ["then"])).Catch
        (fun err log => log ++ [err.getD "nil"])).Rejected (some "Hello, Error!") ∧
    ((((Reject (some "Hello, Error!") : Promise (List String) Nat String).Then
        (fun _ log => log ++ ["then"])).Catch
        (fun err log => log ++ [err.getD "nil"])).Await false []).env = ["Hello, Error!"] :=
  ⟨⟨rfl, rfl, rfl, rfl⟩,
   (Await_rejected_fires_catch
      (((Reject (some "Hello, Error!") : Promise (List String) Nat String).Then
        (fun _ log => log ++ ["then"])).Catch (fun err log => log ++ [err.getD "nil"]))
      (some "Hello, Error!") false [] ⟨rfl, rfl, rfl, rfl⟩).2.2⟩

/-- C10: on a settled promise, fulfilled with `v` or rejected with `e`, the first `Await`
calls every Finally callback exactly once, in registration order, after the branch
callbacks. Its call log is a branch part followed by one Finally call per registered
callback in slice order; the branch part contains no Finally call and consists of all
the Then calls when fulfilled and of all the Catch calls when rejected. The environment
it leaves is the Finally callbacks applied in slice order to the environment left by
the Then callbacks with `v` (fulfilled) or by the Catch callbacks with `e` (rejected). -/
theorem Await_fires_finally_last {σ T E : Type} [Inhabited T] (p : Promise σ T E) (v : T)
    (e : Option E) (pick : Bool) (env : σ) (h : p.Fulfilled v ∨ p.Rejected e) :
    (∃ branch : List (Call T E),
      (p.Await pick env).calls = branch ++ finallyCalls p.finallys.length ∧
      (∀ c ∈ branch, c.isFinally = false) ∧
      (p.Fulfilled v → branch = thenCalls p.thens.length v) ∧
      (p.Rejected e → branch = catchCalls p.catches.length e)) ∧
    (p.Fulfilled v → (p.Await pick env).env =
      p.finallys.foldl (fun s f => f s) (p.thens.foldl (fun s f => f v s) env)) ∧
    (p.Rejected e → (p.Await pick env).env =
      p.finallys.foldl (fun s f => f s) (p.catches.foldl (fun s f => f e s) env)) := by
  refine ⟨?_, fun hf => ?_, fun hr => ?_⟩
  · rcases h with h | h
    · refine ⟨thenCalls p.thens.length v, ?_, ?_, fun _ => rfl, ?_⟩
      · rw [Await_of_fulfilled p v pick env h]
      · intro c hc
        simp only [thenCalls, List.mem_map] at hc
        obtain ⟨i, _, rfl⟩ := hc
        rfl
      · intro hr
        have h1 := h.2.1
        rw [hr.2.1] at h1
        exact absurd h1 (by decide)
    · refine ⟨catchCalls p.catches.length e, ?_, ?_, ?_, fun _ => rfl⟩
      · rw [Await_of_rejected p e pick env h]
      · intro c hc
        simp only [catchCalls, List.mem_map] at hc
        obtain ⟨i, _, rfl⟩ := hc
        rfl
      · intro hf
        have h1 := h.2.1
        rw [hf.2.1] at h1
        exact absurd h1 (by decide)
  · rw [Await_of_fulfilled p v pick env hf]
  · rw [Await_of_rejected p e pick env hr]

/-- Witness for C10: the promise of `TestFanally` with a Then callback adding 1 and a
Finally callback adding 100 to a counter; the log ends with the one Finally call and the
counter ends at 101. -/
theorem Await_fires_finally_last_witness :
    ((((Resolve "Hello, World" : Promise Nat String Unit).Then (fun _ n => n + 1)).Finally
        (fun n => n + 100)).Fulfilled "Hello, World" ∨
      (((Resolve "Hello, World" : Promise Nat String Unit).Then (fun _ n => n + 1)).Finally
        (fun n => n + 100)).Rejected none) ∧
    (∃ branch : List (Call String Unit),
      ((((Resolve "Hello, World" : Promise Nat String Unit).Then (fun _ n => n + 1)).Finally
        (fun n => n + 100)).Await true 0).calls = branch ++ finallyCalls 1 ∧
      (∀ c ∈ branch, c.isFinally = false)) ∧
    ((((Resolve "Hello, World" : Promise Nat String Unit).Then (fun _ n => n + 1)).Finally
        (fun n => n + 100)).Await true 0).env = 101 :=
  ⟨Or.inl ⟨rfl, rfl, rfl, rfl⟩,
   (Await_fires_finally_last
      (((Resolve "Hello, World" : Promise Nat String Unit).Then (fun _ n => n + 1)).Finally
        (fun n => n + 100)) "Hello, World" none true 0 (Or.inl ⟨rfl, rfl, rfl, rfl⟩)).1.imp
      (fun _ hb => ⟨hb.1, hb.2.1⟩),
   (Await_fires_finally_last
      (((Resolve "Hello, World" : Promise Nat String Unit).Then (fun _ n => n + 1)).Finally
        (fun n => n + 100)) "Hello, World" none true 0 (Or.inl ⟨rfl, rfl, rfl, rfl⟩)).2.1
      ⟨rfl, rfl, rfl, rfl⟩⟩

theorem newInv_init {σ T E : Type} [Inhabited T] (handler : Settlement T E)
    (thens : List (T → σ → σ)) (catches : List (Option E → σ → σ)) (finallys : List (σ → σ))
    (env : σ) : NewInv (newInit handler thens catches finallys env) := by
  cases handler <;> simp [NewInv, newInit, awaitInit, New, Chan.make]

theorem newInv_step {σ T E : Type} [Inhabited T] (tid : NewTid) (s : NewState σ T E)
    (h : NewInv s) : NewInv (newStep tid s) := by
  obtain ⟨handler, producer, ⟨⟨⟨rc, rb, rcl⟩, ⟨fc, fb, fcl⟩, ts, cs, fs⟩, pc, env, calls⟩⟩ := s
  obtain ⟨h1, h2, h⟩ := h
  simp only at h1 h2
  subst h1 h2
  cases handler <;> cases producer <;> cases pc <;> simp only [NewInv] at h <;>
    (try exact h.2.elim)
  all_goals
    rcases tid with _ | ⟨_ | _⟩ <;>
      simp_all [NewInv, newStep, NewState.crashed, producerStep, awaitStep, Chan.send,
        Chan.close, Chan.recv, Chan.ready]

theorem newInv_run {σ T E : Type} [Inhabited T] (sched : List NewTid) (s : NewState σ T E)
    (h : NewInv s) : NewInv (newRun sched s) := by
  induction sched generalizing s with
  | nil => exact h
  | cons tid rest ih => exact ih (newStep tid s) (newInv_step tid s h)

theorem newInv_safe {σ T E : Type} [Inhabited T] (s : NewState σ T E) (h : NewInv s) :
    s.crashed = false ∧
    ∀ t e, s.awaiter.pc = AwaitPc.returned t e → (t, e) = s.handler.expected := by
  obtain ⟨handler, producer, ⟨⟨⟨rc, rb, rcl⟩, ⟨fc, fb, fcl⟩, ts, cs, fs⟩, pc, env, calls⟩⟩ := s
  obtain ⟨h1, h2, h⟩ := h
  cases handler <;> cases producer <;> cases pc <;> simp only [NewInv] at h <;>
    (try exact h.2.elim) <;>
    simp_all [NewState.crashed, Settlement.expected]

theorem newInv_producer_done {σ T E : Type} [Inhabited T] (s : NewState σ T E)
    (h : NewInv s) :
    (newStep NewTid.producer (newStep NewTid.producer s)).producer = ProducerPc.finished := by
  obtain ⟨handler, producer, ⟨⟨⟨rc, rb, rcl⟩, ⟨fc, fb, fcl⟩, ts, cs, fs⟩, pc, env, calls⟩⟩ := s
  obtain ⟨h1, h2, h⟩ := h
  simp only at h1 h2
  subst h1 h2
  cases handler <;> cases producer <;> cases pc <;> simp only [NewInv] at h <;>
    (try exact h.2.elim)
  all_goals
    simp_all [newStep, NewState.crashed, producerStep, Chan.send, Chan.close]

theorem newInv_awaiter_done {σ T E : Type} [Inhabited T] (s : NewState σ T E) (pick : Bool)
    (h : NewInv s) (hp : s.producer = ProducerPc.finished) :
    (newStep (NewTid.awaiter pick) (newStep (NewTid.awaiter pick)
        (newStep (NewTid.awaiter pick) s))).awaiter.outcome
      = Outcome.returned s.handler.expected.1 s.handler.expected.2 := by
  obtain ⟨handler, producer, ⟨⟨⟨rc, rb, rcl⟩, ⟨fc, fb, fcl⟩, ts, cs, fs⟩, pc, env, calls⟩⟩ := s
  obtain ⟨h1, h2, h⟩ := h
  simp only at h1 h2 hp
  subst h1 h2 hp
  cases handler <;> cases pc <;> simp only [NewInv] at h <;>
    (try exact h.2.elim)
  all_goals
    cases pick <;>
      simp_all [newStep, NewState.crashed, awaitStep, Chan.close, Chan.recv, Chan.ready,
        AwaitState.outcome, Settlement.expected]

theorem newStep_handler {σ T E : Type} [Inhabited T] (tid : NewTid) (s : NewState σ T E) :
    (newStep tid s).handler = s.handler := by
  unfold newStep
  split
  · rfl
  · cases tid with
    | producer =>
      simp only [producerStep]
      split <;> (try rfl) <;> split <;> rfl
    | awaiter pick => rfl

theorem newInv_finish {σ T E : Type} [Inhabited T] (s : NewState σ T E) (pick : Bool)
    (h : NewInv s) :
    (newRun [NewTid.producer, NewTid.producer, NewTid.awaiter pick, NewTid.awaiter pick,
        NewTid.awaiter pick] s).awaiter.outcome
      = Outcome.returned s.handler.expected.1 s.handler.expected.2 := by
  have h2 : NewInv (newStep NewTid.producer (newStep NewTid.producer s)) :=
    newInv_step _ _ (newInv_step _ _ h)
  have h3 := newInv_awaiter_done _ pick h2 (newInv_producer_done s h)
  rw [newStep_handler, newStep_handler] at h3
  exact h3

theorem newRun_append {σ T E : Type} [Inhabited T] (a b : List NewTid) (s : NewState σ T E) :
    newRun (a ++ b) s = newRun b (newRun a s) := by
  simp [newRun, List.foldl_append]

theorem newRun_handler {σ T E : Type} [Inhabited T] (sched : List NewTid)
    (s : NewState σ T E) : (newRun sched s).handler = s.handler := by
  induction sched generalizing s with
  | nil => rfl
  | cons tid rest ih => exact (ih (newStep tid s)).trans (newStep_handler tid s)

/-- C7: for a producer that settles exactly once, under every interleaving of its two
channel operations with the steps of `Await` (and any callbacks registered before the
`Await`), no goroutine panics, `Await` can only return the producer's settlement
(`(v, nil)` for `resolve(v)`, the zero value and `e` for `reject(e)`), and it does return
it once the producer and the awaiter have been given their remaining steps. -/
theorem New_Await_returns {σ T E : Type} [Inhabited T] (handler : Settlement T E)
    (thens : List (T → σ → σ)) (catches : List (Option E → σ → σ)) (finallys : List (σ → σ))
    (env : σ) (sched : List NewTid) (pick : Bool) :
    (newRun sched (newInit handler thens catches finallys env)).crashed = false ∧
    (∀ t e, (newRun sched (newInit handler thens catches finallys env)).awaiter.pc
        = AwaitPc.returned t e → (t, e) = handler.expected) ∧
    (newRun (sched ++ [NewTid.producer, NewTid.producer, NewTid.awaiter pick,
        NewTid.awaiter pick, NewTid.awaiter pick])
      (newInit handler thens catches finallys env)).awaiter.outcome
      = Outcome.returned handler.expected.1 handler.expected.2 := by
  have hinv := newInv_run sched _ (newInv_init handler thens catches finallys env)
  have hh : (newRun sched (newInit handler thens catches finallys env)).handler = handler :=
    newRun_handler sched _
  have hsafe := newInv_safe _ hinv
  rw [hh] at hsafe
  refine ⟨hsafe.1, hsafe.2, ?_⟩
  rw [newRun_append, newInv_finish _ pick hinv, hh]

theorem getElem_split {α : Type} (l : List α) (i : Nat) (a : α) (h : l[i]? = some a) :
    ∃ pre post, l = pre ++ a :: post ∧ ∀ b, l.set i b = pre ++ b :: post := by
  induction l generalizing i with
  | nil => simp at h
  | cons x xs ih =>
    cases i with
    | zero =>
      simp at h
      subst h
      exact ⟨[], xs, rfl, fun _ => rfl⟩
    | succ n =>
      simp at h
      obtain ⟨pre, post, h1, h2⟩ := ih n h
      refine ⟨x :: pre, post, by simp [h1], fun b => ?_⟩
      simp [h2 b]

theorem pendingAll_append {σ T E : Type} (a b : List (WatcherPc σ T E)) :
    pendingAll (a ++ b) = pendingAll a ++ pendingAll b := by
  induction a with
  | nil => rfl
  | cons w ws ih => simp [pendingAll, ih]

theorem pendingAll_map_Resolve {σ T E : Type} (vs : List T) :
    pendingAll ((vs.map (fun v => (Resolve v : Promise σ T E))).map WatcherPc.start) = vs := by
  induction vs with
  | nil => rfl
  | cons v rest ih => simp [pendingAll, WatcherPc.pending, Resolve] at ih ⊢; exact ih

theorem allInv_init {σ T E : Type} (vs : List T) (hne : vs ≠ []) (env : σ) :
    AllInv vs (All (vs.map (fun v => (Resolve v : Promise σ T E))) env) where
  crashed := rfl
  total := by simp [All]
  good := by
    intro w hw
    simp only [All, List.mem_map] at hw
    obtain ⟨p, ⟨v, _, rfl⟩, rfl⟩ := hw
    exact ⟨v, Resolve_fulfilled v⟩
  perm := by
    simp only [All, List.nil_append]
    rw [pendingAll_map_Resolve]
  mtx := by
    simp [All, List.countP_eq_zero, WatcherPc.inCrit]
  resBuf := rfl
  resCap := rfl
  failBuf := rfl
  phase := by
    left
    refine ⟨?_, rfl, rfl, rfl, ?_, ?_⟩
    · simp [All]
      exact List.length_pos.mpr hne
    · simp [All, List.countP_eq_zero, WatcherPc.atSend]
    · simp [All, List.countP_eq_zero, WatcherPc.atCloseFail]

theorem allInv_watcher {σ T E : Type} [Inhabited T] (vs : List T) (s : AllState σ T E)
    (i : Nat) (pick : Bool) (w : WatcherPc σ T E) (hw : s.watchers[i]? = some w)
    (h : AllInv vs s) : AllInv vs (watcherAct i pick w s) := by
  obtain ⟨pre, post, hws, hset⟩ := getElem_split _ _ _ hw
  obtain ⟨total, data, mtx, ws, ⟨⟨⟨rc, rb, rcl⟩, ⟨fc, fb, fcl⟩, ts, cs, fs⟩, pc, env, calls⟩,
    crashed⟩ := s
  simp only at hws hset
  subst hws
  have hgood := h.good w (by simp)
  have h0 := h
  obtain ⟨h1, h2, h3, h4, h5, h6, h7, h8, h9⟩ := h
  simp only [AllPhase, List.countP_append, List.countP_cons, pendingAll_append, pendingAll]
    at h1 h2 h3 h4 h5 h6 h7 h8 h9
  subst h1 h2 h6 h7 h8
  have hmem : ∀ w1 : WatcherPc σ T E, w1.onSuccessPath →
      ∀ w2 ∈ pre ++ w1 :: post, w2.onSuccessPath := by
    intro w1 hw1 w2 hw2
    simp only [List.mem_append, List.mem_cons] at hw2
    rcases hw2 with hw2 | rfl | hw2
    · exact h3 w2 (by simp [hw2])
    · exact hw1
    · exact h3 w2 (by simp [hw2])
  cases w with
  | start each =>
    obtain ⟨v, hv⟩ := hgood
    have hA := Await_of_fulfilled each v pick env hv
    simp only [watcherAct, hA, AllState.goto, hset, Option.isSome_none, Bool.false_eq_true,
      if_false]
    refine ⟨rfl, rfl, hmem _ trivial, ?_, ?_, rfl, rfl, rfl, ?_⟩
    · simpa [pendingAll_append, pendingAll, WatcherPc.pending, hv.1] using h4
    · simpa [List.countP_append, List.countP_cons, WatcherPc.inCrit] using h5
    · simpa [AllPhase, List.countP_append, List.countP_cons, WatcherPc.atSend,
        WatcherPc.atCloseFail] using h9
  | closeResult err => exact hgood.elim
  | sendFail err => exact hgood.elim
  | lock t =>
    cases mtx with
    | true => exact h0
    | false =>
      simp only [watcherAct, hset, Bool.false_eq_true, if_false]
      refine ⟨rfl, rfl, hmem _ trivial, ?_, ?_, rfl, rfl, rfl, ?_⟩
      · simpa [pendingAll_append, pendingAll, WatcherPc.pending] using h4
      · simp only [List.countP_append, List.countP_cons, WatcherPc.inCrit, if_true,
          Bool.false_eq_true, if_false, Nat.add_zero] at h5 ⊢
        omega
      · simpa [AllPhase, List.countP_append, List.countP_cons, WatcherPc.atSend,
          WatcherPc.atCloseFail] using h9
  | append t =>
    have hlen := h4.length_eq
    simp only [WatcherPc.pending, List.length_append, List.length_cons, List.length_nil] at hlen
    have hperm : ((data ++ [t]) ++ (pendingAll pre ++ pendingAll post)).Perm vs := by
      have e1 : ((data ++ [t]) ++ (pendingAll pre ++ pendingAll post)).Perm
          (t :: (data ++ (pendingAll pre ++ pendingAll post))) := by
        have e0 := (List.perm_middle :
          (data ++ t :: (pendingAll pre ++ pendingAll post)).Perm _)
        simp only [List.append_assoc, List.singleton_append]
        exact e0
      have e2 : (data ++ (pendingAll pre ++ ([t] ++ pendingAll post))).Perm
          (t :: (data ++ (pendingAll pre ++ pendingAll post))) := by
        simpa [List.append_assoc] using (List.perm_middle :
          ((data ++ pendingAll pre) ++ t :: pendingAll post).Perm _)
      exact e1.trans (e2.symm.trans h4)
    simp only [WatcherPc.atSend, WatcherPc.atCloseFail, Bool.false_eq_true, if_false,
      Nat.add_zero] at h9
    have hA : pc = AwaitPc.select ∧ rcl = false ∧ fcl = false ∧
        List.countP WatcherPc.atSend pre + List.countP WatcherPc.atSend post = 0 ∧
        List.countP WatcherPc.atCloseFail pre + List.countP WatcherPc.atCloseFail post = 0 := by
      rcases h9 with h9 | h9 | h9
      · exact h9.2
      · omega
      · omega
    obtain ⟨hpc, hr, hf, hs, hc⟩ := hA
    subst hpc hr hf
    simp only [watcherAct, hset]
    split
    · rename_i hfull
      refine ⟨rfl, rfl, hmem _ trivial, ?_, ?_, rfl, rfl, rfl, ?_⟩
      · simpa [pendingAll_append, pendingAll, WatcherPc.pending] using hperm
      · simpa [List.countP_append, List.countP_cons, WatcherPc.inCrit] using h5
      · right; left
        refine ⟨hfull, rfl, rfl, rfl, ?_, ?_⟩ <;>
        · simp only [List.countP_append, List.countP_cons, WatcherPc.atSend,
            WatcherPc.atCloseFail, if_true, Bool.false_eq_true, if_false, Nat.add_zero]
          omega
    · rename_i hfull
      refine ⟨rfl, rfl, hmem _ trivial, ?_, ?_, rfl, rfl, rfl, ?_⟩
      · simpa [pendingAll_append, pendingAll, WatcherPc.pending] using hperm
      · simpa [List.countP_append, List.countP_cons, WatcherPc.inCrit] using h5
      · left
        simp only [List.length_append, List.length_cons, List.length_nil] at hfull
        refine ⟨?_, rfl, rfl, rfl, ?_, ?_⟩
        · simp only [List.length_append, List.length_cons, List.length_nil]
          omega
        all_goals
          simp only [List.countP_append, List.countP_cons, WatcherPc.atSend,
            WatcherPc.atCloseFail, if_true, Bool.false_eq_true, if_false, Nat.add_zero]
          omega
  | sendResult =>
    simp only [WatcherPc.atSend, WatcherPc.atCloseFail, Bool.false_eq_true, if_false,
      if_true, Nat.add_zero] at h9
    have hB : data.length = vs.length ∧ pc = AwaitPc.select ∧ rcl = false ∧ fcl = false ∧
        List.countP WatcherPc.atSend pre + List.countP WatcherPc.atSend post = 0 ∧
        List.countP WatcherPc.atCloseFail pre + List.countP WatcherPc.atCloseFail post = 0 := by
      rcases h9 with h9 | h9 | h9
      · omega
      · exact ⟨h9.1, h9.2.1, h9.2.2.1, h9.2.2.2.1, by omega, h9.2.2.2.2.2⟩
      · omega
    obtain ⟨hd, hpc, hr, hf, hs, hc⟩ := hB
    subst hpc hr hf
    simp only [watcherAct, Chan.send, hset, Bool.false_eq_true, if_false, List.length_nil,
      Nat.lt_irrefl, List.isEmpty_nil, if_true]
    refine ⟨rfl, rfl, hmem _ trivial, ?_, ?_, rfl, rfl, rfl, ?_⟩
    · simpa [pendingAll_append, pendingAll, WatcherPc.pending] using h4
    · simpa [List.countP_append, List.countP_cons, WatcherPc.inCrit] using h5
    · right; right
      refine ⟨hd, ?_, Or.inl ⟨?_, rfl⟩, Or.inl ⟨rfl, rfl⟩⟩ <;>
      · simp only [List.countP_append, List.countP_cons, WatcherPc.atSend,
          WatcherPc.atCloseFail, if_true, Bool.false_eq_true, if_false, Nat.add_zero]
        omega
  | closeFail =>
    simp only [WatcherPc.atSend, WatcherPc.atCloseFail, Bool.false_eq_true, if_false,
      if_true, Nat.add_zero] at h9
    have hB : data.length = vs.length ∧ fcl = false ∧
        List.countP WatcherPc.atSend pre + List.countP WatcherPc.atSend post = 0 ∧
        List.countP WatcherPc.atCloseFail pre + List.countP WatcherPc.atCloseFail post = 0 ∧
        ((pc = AwaitPc.settle false data none ∧ rcl = false) ∨
          (pc = AwaitPc.returned data none ∧ rcl = true)) := by
      rcases h9 with h9 | h9 | h9
      · omega
      · omega
      · obtain ⟨ha, hb, hc, hd⟩ := h9
        rcases hc with hc | hc
        · exact ⟨ha, hc.2, hb, by omega, hd⟩
        · omega
    obtain ⟨hd, hf, hs, hc, hpc⟩ := hB
    subst hf
    simp only [watcherAct, Chan.close, hset, Bool.false_eq_true, if_false]
    refine ⟨rfl, rfl, hmem _ trivial, ?_, ?_, rfl, rfl, rfl, ?_⟩
    · simpa [pendingAll_append, pendingAll, WatcherPc.pending] using h4
    · simpa [List.countP_append, List.countP_cons, WatcherPc.inCrit] using h5
    · right; right
      refine ⟨hd, ?_, Or.inr ⟨?_, rfl⟩, hpc⟩ <;>
      · simp only [List.countP_append, List.countP_cons, WatcherPc.atSend,
          WatcherPc.atCloseFail, if_true, Bool.false_eq_true, if_false, Nat.add_zero]
        omega
  | unlock =>
    simp only [watcherAct, hset]
    refine ⟨rfl, rfl, hmem _ trivial, ?_, ?_, rfl, rfl, rfl, ?_⟩
    · simpa [pendingAll_append, pendingAll, WatcherPc.pending] using h4
    · simp only [List.countP_append, List.countP_cons, WatcherPc.inCrit, if_true,
        Bool.false_eq_true, if_false] at h5 ⊢
      cases mtx
      · simp only [Bool.false_eq_true, if_false] at h5
        omega
      · simp only [if_true] at h5
        omega
    · simp only [WatcherPc.atSend, WatcherPc.atCloseFail, Bool.false_eq_true, if_false,
        Nat.add_zero] at h9
      simp only [AllPhase, List.countP_append, List.countP_cons, WatcherPc.atSend,
        WatcherPc.atCloseFail, Bool.false_eq_true, if_false, Nat.add_zero]
      exact h9
  | finished => exact h0

theorem allInv_awaiter {σ T E : Type} [Inhabited T] (vs : List T) (s : AllState σ T E)
    (pick : Bool) (h : AllInv vs s) :
    AllInv vs { s with awaiter := awaitStep pick s.awaiter } := by
  obtain ⟨total, data, mtx, ws, ⟨⟨⟨rc, rb, rcl⟩, ⟨fc, fb, fcl⟩, ts, cs, fs⟩, pc, env, calls⟩,
    crashed⟩ := s
  have h0 := h
  obtain ⟨h1, h2, h3, h4, h5, h6, h7, h8, h9⟩ := h
  simp only at h1 h2 h3 h4 h5 h6 h7 h8
  subst h1 h2 h6 h7 h8
  rcases h9 with h9 | h9 | h9
  · obtain ⟨ha, hpc, hr, hf, hs, hc⟩ := h9
    simp only at ha hpc hr hf hs hc
    subst hpc hr hf
    simpa [awaitStep, Chan.ready] using h0
  · obtain ⟨ha, hpc, hr, hf, hs, hc⟩ := h9
    simp only at ha hpc hr hf hs hc
    subst hpc hr hf
    simpa [awaitStep, Chan.ready] using h0
  · obtain ⟨ha, hs, hc, hpc⟩ := h9
    simp only at ha hs hc hpc
    rcases hpc with ⟨hpc, hr⟩ | ⟨hpc, hr⟩
    · subst hpc hr
      simp only [awaitStep, Chan.close, Bool.not_false, if_true, Bool.false_eq_true, if_false]
      exact ⟨rfl, rfl, h3, h4, h5, rfl, rfl, rfl, Or.inr (Or.inr ⟨ha, hs, hc, Or.inr ⟨rfl, rfl⟩⟩)⟩
    · subst hpc hr
      exact h0

theorem allInv_step {σ T E : Type} [Inhabited T] (vs : List T) (tp : AllTid × Bool)
    (s : AllState σ T E) (h : AllInv vs s) : AllInv vs (allStep tp s) := by
  unfold allStep
  split
  · exact h
  · split
    · split
      · rename_i w hw
        exact allInv_watcher vs s _ tp.2 w hw h
      · exact h
    · exact allInv_awaiter vs s tp.2 h

theorem allInv_run {σ T E : Type} [Inhabited T] (vs : List T) (sched : List (AllTid × Bool))
    (s : AllState σ T E) (h : AllInv vs s) : AllInv vs (allRun sched s) := by
  induction sched generalizing s with
  | nil => exact h
  | cons tp rest ih => exact ih (allStep tp s) (allInv_step vs tp s h)

theorem allInv_safe {σ T E : Type} (vs : List T) (s : AllState σ T E) (h : AllInv vs s) :
    s.dead = false ∧
    ∀ d e, s.awaiter.pc = AwaitPc.returned d e → e = none ∧ d.Perm vs := by
  have hp := h.phase
  have hc := h.crashed
  have hperm := h.perm
  have hlen := hperm.length_eq
  rw [List.length_append] at hlen
  have ht := h.total
  rcases hp with hp | hp | hp
  · obtain ⟨_, hpc, _⟩ := hp
    refine ⟨by simp [AllState.dead, hc, hpc], fun d e hd => ?_⟩
    rw [hpc] at hd
    cases hd
  · obtain ⟨_, hpc, _⟩ := hp
    refine ⟨by simp [AllState.dead, hc, hpc], fun d e hd => ?_⟩
    rw [hpc] at hd
    cases hd
  · obtain ⟨hfull, _, _, hpc⟩ := hp
    have hnil : pendingAll s.watchers = [] := by
      apply List.eq_nil_of_length_eq_zero
      omega
    rw [hnil, List.append_nil] at hperm
    rcases hpc with ⟨hpc, _⟩ | ⟨hpc, _⟩
    · refine ⟨by simp [AllState.dead, hc, hpc], fun d e hd => ?_⟩
      rw [hpc] at hd
      cases hd
    · refine ⟨by simp [AllState.dead, hc, hpc], fun d e hd => ?_⟩
      rw [hpc] at hd
      cases hd
      exact ⟨rfl, hperm⟩

theorem countP_pos_getElem {α : Type} (p : α → Bool) (l : List α) (h : 0 < l.countP p) :
    ∃ (i : Nat) (a : α), l[i]? = some a ∧ p a = true := by
  induction l with
  | nil => simp at h
  | cons x xs ih =>
    by_cases hx : p x = true
    · exact ⟨0, x, by simp, hx⟩
    · have h2 : 0 < xs.countP p := by
        simpa [List.countP_cons, hx] using h
      obtain ⟨i, a, hi, ha⟩ := ih h2
      exact ⟨i + 1, a, by simpa using hi, ha⟩

theorem pendingAll_ne_nil {σ T E : Type} (ws : List (WatcherPc σ T E))
    (h : pendingAll ws ≠ []) :
    ∃ (i : Nat) (w : WatcherPc σ T E), ws[i]? = some w ∧ w.pending ≠ [] := by
  induction ws with
  | nil => exact absurd rfl h
  | cons x xs ih =>
    by_cases hx : x.pending = []
    · have h2 : pendingAll xs ≠ [] := by
        simpa [pendingAll, hx] using h
      obtain ⟨i, w, hi, hw⟩ := ih h2
      exact ⟨i + 1, w, by simpa using hi, hw⟩
    · exact ⟨0, x, by simp, hx⟩

theorem allStep_watcher {σ T E : Type} [Inhabited T] (s : AllState σ T E) (i : Nat)
    (pick : Bool) (w : WatcherPc σ T E) (hd : s.dead = false) (hw : s.watchers[i]? = some w) :
    allStep (AllTid.watcher i, pick) s = watcherAct i pick w s := by
  simp [allStep, hd, hw]

theorem allStep_awaiter {σ T E : Type} [Inhabited T] (s : AllState σ T E) (pick : Bool)
    (hd : s.dead = false) :
    allStep (AllTid.awaiter, pick) s = { s with awaiter := awaitStep pick s.awaiter } := by
  simp [allStep, hd]

theorem watcher_rank {σ T E : Type} [Inhabited T] (vs : List T) (s : AllState σ T E)
    (i : Nat) (pick : Bool) (w : WatcherPc σ T E) (hw : s.watchers[i]? = some w)
    (h : AllInv vs s) (hen : w.canMove s.mtx) : (watcherAct i pick w s).rank < s.rank := by
  obtain ⟨pre, post, hws, hset⟩ := getElem_split _ _ _ hw
  obtain ⟨total, data, mtx, ws, ⟨⟨⟨rc, rb, rcl⟩, ⟨fc, fb, fcl⟩, ts, cs, fs⟩, pc, env, calls⟩,
    crashed⟩ := s
  simp only at hws hset
  subst hws
  have hgood := h.good w (by simp)
  obtain ⟨h1, h2, h3, h4, h5, h6, h7, h8, h9⟩ := h
  simp only [AllPhase, List.countP_append, List.countP_cons, pendingAll_append, pendingAll]
    at h1 h2 h3 h4 h5 h6 h7 h8 h9
  subst h1 h2 h6 h7 h8
  cases w with
  | start each =>
    obtain ⟨v, hv⟩ := hgood
    have hA := Await_of_fulfilled each v pick env hv
    simp only [watcherAct, hA, AllState.goto, hset, Option.isSome_none, Bool.false_eq_true,
      if_false, AllState.rank, List.map_append, List.map_cons, List.sum_append, List.sum_cons,
      WatcherPc.rank]
    omega
  | closeResult err => exact hgood.elim
  | sendFail err => exact hgood.elim
  | lock t =>
    simp only [WatcherPc.canMove] at hen
    subst hen
    simp only [watcherAct, hset, Bool.false_eq_true, if_false, AllState.rank, List.map_append,
      List.map_cons, List.sum_append, List.sum_cons, WatcherPc.rank]
    omega
  | append t =>
    simp only [watcherAct, hset]
    split <;>
    · simp only [AllState.rank, List.map_append, List.map_cons, List.sum_append, List.sum_cons,
        WatcherPc.rank]
      omega
  | sendResult =>
    simp only [WatcherPc.atSend, WatcherPc.atCloseFail, Bool.false_eq_true, if_false,
      if_true, Nat.add_zero] at h9
    have hB : pc = AwaitPc.select ∧ rcl = false := by
      rcases h9 with h9 | h9 | h9
      · omega
      · exact ⟨h9.2.1, h9.2.2.1⟩
      · omega
    obtain ⟨hpc, hr⟩ := hB
    subst hpc hr
    simp only [watcherAct, Chan.send, hset, Bool.false_eq_true, if_false, List.length_nil,
      Nat.lt_irrefl, List.isEmpty_nil, if_true, AllState.rank, List.map_append, List.map_cons,
      List.sum_append, List.sum_cons, WatcherPc.rank, AwaitPc.rank]
    omega
  | closeFail =>
    simp only [WatcherPc.atSend, WatcherPc.atCloseFail, Bool.false_eq_true, if_false,
      if_true, Nat.add_zero] at h9
    have hB : fcl = false := by
      rcases h9 with h9 | h9 | h9
      · omega
      · omega
      · obtain ⟨ha, hb, hc, hd⟩ := h9
        rcases hc with hc | hc
        · exact hc.2
        · omega
    subst hB
    simp only [watcherAct, Chan.close, hset, Bool.false_eq_true, if_false, AllState.rank,
      List.map_append, List.map_cons, List.sum_append, List.sum_cons, WatcherPc.rank]
    omega
  | unlock =>
    simp only [watcherAct, hset, AllState.rank, List.map_append, List.map_cons,
      List.sum_append, List.sum_cons, WatcherPc.rank]
    omega
  | finished => exact hen.elim

theorem all_progress {σ T E : Type} [Inhabited T] (vs : List T) (s : AllState σ T E)
    (h : AllInv vs s) (hnr : ∀ d e, s.awaiter.pc ≠ AwaitPc.returned d e) :
    ∃ tp, (allStep tp s).rank < s.rank := by
  have hd := (allInv_safe vs s h).1
  rcases h.phase with hp | hp | hp
  · obtain ⟨hlt, hpc, hr, hf, hs, hc⟩ := hp
    have hlen := h.perm.length_eq
    rw [List.length_append, ← h.total] at hlen
    cases hm : s.mtx with
    | false =>
      have hne : pendingAll s.watchers ≠ [] := by
        intro h0
        rw [h0] at hlen
        simp only [List.length_nil] at hlen
        omega
      obtain ⟨i, w, hw, hpw⟩ := pendingAll_ne_nil _ hne
      refine ⟨(AllTid.watcher i, true), ?_⟩
      rw [allStep_watcher s i true w hd hw]
      apply watcher_rank vs s i true w hw h
      rw [hm]
      cases w <;> simp [WatcherPc.canMove, WatcherPc.pending] at hpw ⊢
    | true =>
      have hcnt := h.mtx
      rw [hm] at hcnt
      simp only [if_true] at hcnt
      obtain ⟨i, w, hw, hpw⟩ := countP_pos_getElem WatcherPc.inCrit s.watchers (by omega)
      refine ⟨(AllTid.watcher i, true), ?_⟩
      rw [allStep_watcher s i true w hd hw]
      apply watcher_rank vs s i true w hw h
      cases w <;> simp [WatcherPc.canMove, WatcherPc.inCrit] at hpw ⊢
  · obtain ⟨hlt, hpc, hr, hf, hs, hc⟩ := hp
    obtain ⟨i, w, hw, hpw⟩ := countP_pos_getElem WatcherPc.atSend s.watchers (by omega)
    refine ⟨(AllTid.watcher i, true), ?_⟩
    rw [allStep_watcher s i true w hd hw]
    apply watcher_rank vs s i true w hw h
    cases w <;> simp [WatcherPc.canMove, WatcherPc.atSend] at hpw ⊢
  · obtain ⟨_, _, _, hpc⟩ := hp
    rcases hpc with ⟨hpc, hr⟩ | ⟨hpc, _⟩
    · refine ⟨(AllTid.awaiter, true), ?_⟩
      rw [allStep_awaiter s true hd]
      obtain ⟨total, data, mtx, ws, ⟨⟨⟨rc, rb, rcl⟩, ⟨fc, fb, fcl⟩, ts, cs, fs⟩, pc, env,
        calls⟩, crashed⟩ := s
      simp only at hpc hr
      subst hpc hr
      simp [AllState.rank, awaitStep, Chan.close, AwaitPc.rank]
    · exact absurd hpc (hnr _ _)

theorem all_finish {σ T E : Type} [Inhabited T] (vs : List T) (n : Nat) :
    ∀ s : AllState σ T E, s.rank ≤ n → AllInv vs s →
      ∃ ext d, (allRun ext s).awaiter.pc = AwaitPc.returned d none ∧ d.Perm vs := by
  induction n with
  | zero =>
    intro s hn h
    by_cases hr : ∃ d e, s.awaiter.pc = AwaitPc.returned d e
    · obtain ⟨d, e, hde⟩ := hr
      obtain ⟨he, hp⟩ := (allInv_safe vs s h).2 d e hde
      subst he
      exact ⟨[], d, hde, hp⟩
    · have hnr : ∀ d e, s.awaiter.pc ≠ AwaitPc.returned d e := fun d e hde => hr ⟨d, e, hde⟩
      obtain ⟨tp, htp⟩ := all_progress vs s h hnr
      omega
  | succ k ih =>
    intro s hn h
    by_cases hr : ∃ d e, s.awaiter.pc = AwaitPc.returned d e
    · obtain ⟨d, e, hde⟩ := hr
      obtain ⟨he, hp⟩ := (allInv_safe vs s h).2 d e hde
      subst he
      exact ⟨[], d, hde, hp⟩
    · have hnr : ∀ d e, s.awaiter.pc ≠ AwaitPc.returned d e := fun d e hde => hr ⟨d, e, hde⟩
      obtain ⟨tp, htp⟩ := all_progress vs s h hnr
      obtain ⟨ext, d, hd, hp⟩ := ih (allStep tp s) (by omega) (allInv_step vs tp s h)
      exact ⟨tp :: ext, d, hd, hp⟩

theorem allRun_append {σ T E : Type} [Inhabited T] (a b : List (AllTid × Bool))
    (s : AllState σ T E) : allRun (a ++ b) s = allRun b (allRun a s) := by
  simp [allRun, List.foldl_append]

/-- C4: for every non-empty list of fulfilled promises `Resolve(v1), ..., Resolve(vn)` and
every schedule of the watchers and of `Await` (with every pick of every `select`), nothing
panics, `Await` on `All(...)` can only return a nil error together with a permutation of
`v1..vn` (hence of length `n` and with the same sum), and from every reachable state it
does return such a result when the goroutines are run on. -/
theorem All_fulfilled_returns {σ T E : Type} [Inhabited T] (vs : List T) (hne : vs ≠ [])
    (env : σ) (sched : List (AllTid × Bool)) :
    (allRun sched (All (vs.map (fun v => (Resolve v : Promise σ T E))) env)).dead = false ∧
    (∀ d e, (allRun sched (All (vs.map (fun v => (Resolve v : Promise σ T E))) env)).awaiter.pc
        = AwaitPc.returned d e → e = none ∧ d.Perm vs) ∧
    ∃ ext d, (allRun (sched ++ ext)
        (All (vs.map (fun v => (Resolve v : Promise σ T E))) env)).awaiter.pc
        = AwaitPc.returned d none ∧ d.Perm vs := by
  have hinv := allInv_run vs sched _ (@allInv_init σ T E vs hne env)
  have hsafe := allInv_safe vs _ hinv
  refine ⟨hsafe.1, hsafe.2, ?_⟩
  obtain ⟨ext, d, hd, hp⟩ := all_finish vs _ _ (Nat.le_refl _) hinv
  exact ⟨ext, d, by rw [allRun_append]; exact hd, hp⟩

/-- Witness for C4: the inputs of `TestAll`; the returned sequence sums to 10. -/
theorem All_fulfilled_returns_witness :
    [1, 2, 3, 4] ≠ ([] : List Nat) ∧
    ∃ ext d, (allRun ([] ++ ext)
        (All ([1, 2, 3, 4].map (fun v => (Resolve v : Promise Unit Nat Unit))) ())).awaiter.pc
        = AwaitPc.returned d none ∧ d.sum = 10 :=
  ⟨by decide,
   (All_fulfilled_returns [1, 2, 3, 4] (by decide) () []).2.2.imp
     (fun _ h => h.imp (fun _ hd => ⟨hd.1, by rw [hd.2.sum_eq]; rfl⟩))⟩

theorem allStep_All_nil {σ T E : Type} [Inhabited T] (env : σ) (tp : AllTid × Bool) :
    allStep tp (All ([] : List (Promise σ T E)) env) = All [] env := by
  obtain ⟨tid, pick⟩ := tp
  cases tid <;> simp [allStep, All, AllState.dead, awaitInit, awaitStep, Chan.ready, Chan.make]

/-- C6 (what the code does instead): `All()` with no input starts no watcher, so nothing
ever sends on or closes a channel of the aggregate promise; under every schedule the state
never changes and `Await` remains blocked at its `select`. -/
theorem All_empty_never_returns {σ T E : Type} [Inhabited T] (env : σ)
    (sched : List (AllTid × Bool)) :
    allRun sched (All ([] : List (Promise σ T E)) env) = All [] env ∧
    (allRun sched (All ([] : List (Promise σ T E)) env)).awaiter.outcome = Outcome.blocked := by
  have h : allRun sched (All ([] : List (Promise σ T E)) env) = All [] env := by
    induction sched with
    | nil => rfl
    | cons tp rest ih =>
      show allRun rest (allStep tp (All [] env)) = All [] env
      rw [allStep_All_nil]
      exact ih
  exact ⟨h, by rw [h]; rfl⟩

/-- C5 (what the code does instead): with the two rejected inputs `Reject(e1)`,
`Reject(e2)`, once the first watcher has closed `prom.result` and sent its error, the
second watcher panics at `close(prom.result)`, and `defer recover()` does not stop the
panic. This happens when `Await` has not returned yet (it never returns), and also after
`Await` returned the first error. -/
theorem All_two_rejected_panics :
    (allRun [(AllTid.watcher 0, true), (AllTid.watcher 0, true), (AllTid.watcher 0, true),
        (AllTid.watcher 1, true), (AllTid.watcher 1, true)]
      (All [(Reject (some "e1") : Promise Unit Nat String), Reject (some "e2")] ())).crashed
      = true ∧
    (allRun [(AllTid.watcher 0, true), (AllTid.watcher 0, true), (AllTid.watcher 0, true),
        (AllTid.watcher 1, true), (AllTid.watcher 1, true)]
      (All [(Reject (some "e1") : Promise Unit Nat String), Reject (some "e2")]
        ())).awaiter.outcome = Outcome.blocked ∧
    (allRun [(AllTid.watcher 0, true), (AllTid.watcher 0, true), (AllTid.watcher 0, true),
        (AllTid.awaiter, true), (AllTid.awaiter, true), (AllTid.awaiter, true)]
      (All [(Reject (some "e1") : Promise Unit Nat String), Reject (some "e2")]
        ())).awaiter.outcome = Outcome.returned [] (some "e1") ∧
    (allRun [(AllTid.watcher 0, true), (AllTid.watcher 0, true), (AllTid.watcher 0, true),
        (AllTid.awaiter, true), (AllTid.awaiter, true), (AllTid.awaiter, true),
        (AllTid.watcher 1, true), (AllTid.watcher 1, true)]
      (All [(Reject (some "e1") : Promise Unit Nat String), Reject (some "e2")] ())).crashed
      = true :=
  ⟨by decide, rfl, rfl, by decide⟩

/-- The second half of `TestAll`: with a single rejected input among fulfilled ones, a run
in which every goroutine completes returns the zero-length result and the error, and
nothing panics. -/
theorem All_one_rejected_example :
    (allRun [(AllTid.watcher 0, true), (AllTid.watcher 0, true), (AllTid.watcher 0, true),
        (AllTid.watcher 0, true), (AllTid.watcher 4, false), (AllTid.watcher 4, false),
        (AllTid.awaiter, true), (AllTid.watcher 1, true), (AllTid.watcher 4, true),
        (AllTid.awaiter, true), (AllTid.awaiter, true), (AllTid.watcher 1, true),
        (AllTid.watcher 1, true), (AllTid.watcher 1, true)]
      (All [(Resolve 1 : Promise Unit Nat String), Resolve 2, Resolve 3, Resolve 4,
        Reject (some "Hello, Error!")] ())).awaiter.outcome
      = Outcome.returned [] (some "Hello, Error!") ∧
    (allRun [(AllTid.watcher 0, true), (AllTid.watcher 0, true), (AllTid.watcher 0, true),
        (AllTid.watcher 0, true), (AllTid.watcher 4, false), (AllTid.watcher 4, false),
        (AllTid.awaiter, true), (AllTid.watcher 1, true), (AllTid.watcher 4, true),
        (AllTid.awaiter, true), (AllTid.awaiter, true), (AllTid.watcher 1, true),
        (AllTid.watcher 1, true), (AllTid.watcher 1, true)]
      (All [(Resolve 1 : Promise Unit Nat String), Resolve 2, Resolve 3, Resolve 4,
        Reject (some "Hello, Error!")] ())).dead = false :=
  ⟨rfl, by decide⟩

end promise
